import Mathlib

/-!
Verification development for the RustScan TUI repository.

Rust `String` values operated on character-by-character are modelled as
`List Char`; the Rust byte index into a UTF-8 buffer is modelled by the sum
of the UTF-8 sizes (`Char.utf8Size`) of the preceding characters.
Stateful Rust methods (`&mut self`) become Lean functions from the state
structure to a new state structure.
-/

/-! ## Embedding of `src/tui_app/shared/text_input.rs` -/

/-- State of the `TextInput` struct: `text: String` (as a character list) and
`cursor: usize` (a character index). -/
structure TextInput where
  text : List Char
  cursor : Nat
deriving Repr, DecidableEq

/-- Model of Rust `String::insert(byte_index, c)`: walk the character list,
consuming `Char.utf8Size` bytes per character, and insert `c` once the
requested byte offset is consumed. -/
def insertAtByte (c : Char) : List Char → Nat → List Char
  | [], _ => [c]
  | x :: xs, b => if b = 0 then c :: x :: xs else x :: insertAtByte c xs (b - x.utf8Size)

/-- `TextInput::byte_index`: `char_indices().nth(cursor)`, i.e. the byte offset
of the cursor-th character, with the total byte length as the fallback. -/
def TextInput.byte_index (t : TextInput) : Nat :=
  ((t.text.take t.cursor).map Char.utf8Size).sum

def TextInput.new : TextInput := ⟨[], 0⟩

def TextInput.with_text (text : List Char) : TextInput := ⟨text, text.length⟩

def TextInput.set_text (_t : TextInput) (text : List Char) : TextInput :=
  ⟨text, text.length⟩

def TextInput.clear (_t : TextInput) : TextInput := ⟨[], 0⟩

def TextInput.is_empty (t : TextInput) : Bool := t.text.isEmpty

def TextInput.move_cursor_left (t : TextInput) : TextInput :=
  { t with cursor := t.cursor - 1 }

def TextInput.move_cursor_right (t : TextInput) : TextInput :=
  { t with cursor := min (t.cursor + 1) t.text.length }

def TextInput.set_cursor (t : TextInput) (position : Nat) : TextInput :=
  { t with cursor := min position t.text.length }

def TextInput.insert_char (t : TextInput) (c : Char) : TextInput :=
  ({ t with text := insertAtByte c t.text t.byte_index } : TextInput).move_cursor_right

def TextInput.remove_previous_char (t : TextInput) : TextInput :=
  if 0 < t.cursor then
    ({ t with text := t.text.take (t.cursor - 1) ++ t.text.drop t.cursor }
      : TextInput).move_cursor_left
  else t

def TextInput.remove_next_char (t : TextInput) : TextInput :=
  if t.cursor < t.text.length then
    { t with text := t.text.take t.cursor ++ t.text.drop (t.cursor + 1) }
  else t

/-- Model of `while pos > 0 && f(chars[pos - 1]) { pos -= 1 }`. -/
def skipBackWhile (f : Char → Bool) (chars : List Char) : Nat → Nat
  | 0 => 0
  | p + 1 => if f (chars.getD p ' ') then skipBackWhile f chars p else p + 1

/-- Model of `while pos < chars.len() && f(chars[pos]) { pos += 1 }`. -/
def skipFwdWhile (f : Char → Bool) (chars : List Char) (p : Nat) : Nat :=
  if h : p < chars.length ∧ f (chars.getD p ' ') then skipFwdWhile f chars (p + 1) else p
termination_by chars.length - p
decreasing_by omega

def TextInput.delete_previous_word (t : TextInput) : TextInput :=
  if t.cursor = 0 then t
  else
    let chars := t.text
    let pos1 := skipBackWhile Char.isWhitespace chars t.cursor
    let pos := skipBackWhile (fun c => !c.isWhitespace) chars pos1
    { text := chars.take pos ++ chars.drop t.cursor, cursor := pos }

def TextInput.delete_next_word (t : TextInput) : TextInput :=
  let chars := t.text
  if chars.length ≤ t.cursor then t
  else
    let pos1 := skipFwdWhile Char.isWhitespace chars t.cursor
    let pos := skipFwdWhile (fun c => !c.isWhitespace) chars pos1
    { t with text := chars.take t.cursor ++ chars.drop pos }

def TextInput.move_cursor_to_previous_word (t : TextInput) : TextInput :=
  if t.cursor = 0 then t
  else
    let pos1 := skipBackWhile Char.isWhitespace t.text t.cursor
    { t with cursor := skipBackWhile (fun c => !c.isWhitespace) t.text pos1 }

def TextInput.move_cursor_to_next_word (t : TextInput) : TextInput :=
  if t.text.length ≤ t.cursor then t
  else
    let pos1 := skipFwdWhile (fun c => !c.isWhitespace) t.text t.cursor
    { t with cursor := skipFwdWhile Char.isWhitespace t.text pos1 }

/-- The cursor invariant: the cursor never exceeds the number of characters. -/
def TextInput.Inv (t : TextInput) : Prop := t.cursor ≤ t.text.length

instance (t : TextInput) : Decidable t.Inv := by unfold TextInput.Inv; infer_instance

/-! ## Character-list helpers shared by the embeddings

These model the Rust standard-library string operations used by the TUI code:
`str::split(sep)`, `str::trim`, `Vec::<String>::join(sep)`. -/

/-- Model of Rust `str::split(sep)` on a character list (always at least one
segment, empty segments preserved). -/
def splitOnChar (sep : Char) : List Char → List (List Char)
  | [] => [[]]
  | x :: xs =>
    match splitOnChar sep xs with
    | [] => if x = sep then [[], []] else [[x]]
    | h :: t => if x = sep then [] :: h :: t else (x :: h) :: t

/-- Model of Rust `str::trim`: drop Unicode whitespace from both ends. -/
def trimChars (l : List Char) : List Char :=
  ((l.dropWhile Char.isWhitespace).reverse.dropWhile Char.isWhitespace).reverse

/-- Model of Rust `Vec::<String>::join(sep)` for a one-character separator. -/
def joinChar (sep : Char) : List (List Char) → List Char
  | [] => []
  | [x] => x
  | x :: y :: rest => x ++ sep :: joinChar sep (y :: rest)

/-! ## Field/button enums

`SelectedField` is declared identically in `src/tui_app/model.rs` and
`src/tui_app/scan_config/model.rs`; one inductive stands for both.
`ButtonMode` is `src/tui_app/shared/button_mode.rs`; `ScanButtonState` is the
`State` enum of `src/tui_app/ui/components/scan_configuration/scan_button.rs`;
`HoveredField` is from `src/tui_app/model.rs`. -/

inductive SelectedField where
  | None
  | Targets
  | Ports
  | Options
  | ScanButton
deriving Repr, DecidableEq

inductive HoveredField where
  | None
  | Targets
  | Ports
  | Options
  | ScanButton
deriving Repr, DecidableEq

inductive ButtonMode where
  | Normal
  | Selected
  | Active
deriving Repr, DecidableEq

def ButtonMode.default : ButtonMode := .Normal

inductive ScanButtonState where
  | Normal
  | Selected
  | Active
deriving Repr, DecidableEq

def ScanButtonState.default : ScanButtonState := .Normal

/-! ## Embedding of `src/tui_app/shared/output_buffer.rs`

The Rust struct wraps its fields in `Arc<Mutex<_>>`; the embedding is the
single-threaded state (the code paths taken when every `lock()` succeeds). -/

structure OutputBuffer where
  lines : List String
  scroll_position : Nat
  max_lines : Nat
deriving Repr, DecidableEq

def OutputBuffer.with_capacity (max_lines : Nat) : OutputBuffer :=
  ⟨[], 0, max_lines⟩

def OutputBuffer.new : OutputBuffer := OutputBuffer.with_capacity 10000

def OutputBuffer.push_line (b : OutputBuffer) (line : String) : OutputBuffer :=
  let lines := b.lines ++ [line]
  let len := lines.length
  let lines := if b.max_lines < len then lines.drop (len - b.max_lines) else lines
  { b with
    lines := lines
    scroll_position := if b.scroll_position ≠ 0 then b.scroll_position - 1
      else b.scroll_position }

def OutputBuffer.scroll_up (b : OutputBuffer) (lines : Nat) : OutputBuffer :=
  { b with scroll_position := min (b.scroll_position + lines) (b.lines.length - 1) }

def OutputBuffer.scroll_down (b : OutputBuffer) (lines : Nat) : OutputBuffer :=
  { b with scroll_position := b.scroll_position - lines }

def OutputBuffer.scroll_to_bottom (b : OutputBuffer) : OutputBuffer :=
  { b with scroll_position := 0 }

def OutputBuffer.scroll_to_top (b : OutputBuffer) : OutputBuffer :=
  { b with scroll_position := b.lines.length - 1 }

def OutputBuffer.clear (b : OutputBuffer) : OutputBuffer :=
  { b with lines := [], scroll_position := 0 }

/-! ## Embedding of `src/tui_app/results/model.rs` -/

structure ResultsModel where
  lines : List String
  scroll_position : Nat
  max_lines : Nat
deriving Repr, DecidableEq

def ResultsModel.default : ResultsModel := ⟨[], 0, 10000⟩

/-- `ResultsModel::push_line`: split the pushed string on newline characters
(Rust `line.split('\n')`, modelled character-wise), append every segment, then
drain the oldest lines past `max_lines` and adjust the scroll position. -/
def ResultsModel.push_line (m : ResultsModel) (line : String) : ResultsModel :=
  let lines := m.lines ++ (splitOnChar '\n' line.data).map (fun l => String.mk l)
  let len := lines.length
  let lines := if m.max_lines < len then lines.drop (len - m.max_lines) else lines
  { m with
    lines := lines
    scroll_position := if m.scroll_position ≠ 0 then m.scroll_position - 1
      else m.scroll_position }

def ResultsModel.push_lines (m : ResultsModel) (ls : List String) : ResultsModel :=
  ls.foldl ResultsModel.push_line m

def ResultsModel.clear (m : ResultsModel) : ResultsModel :=
  { m with lines := [], scroll_position := 0 }

def ResultsModel.scroll_up (m : ResultsModel) (lines : Nat) : ResultsModel :=
  { m with scroll_position := min (m.scroll_position + lines) (m.lines.length - 1) }

def ResultsModel.scroll_down (m : ResultsModel) (lines : Nat) : ResultsModel :=
  { m with scroll_position := m.scroll_position - lines }

/-! ## Model of `crate::input` (`Opts`, `PortRange`, `ScanOrder`)

The file `input.rs` is not under `src/`; only its callers are. The structures
below are modelled from the spec (section 6: configuration input; section 3:
`PortSpec`/`ScanConfig`) and from how the TUI code uses the fields. -/

/-- Modelled from the spec: the inclusive port range `Range{start,end}` of the
port specification (missing `input.rs`). -/
structure PortRange where
  start : Nat
  «end» : Nat
deriving Repr, DecidableEq

/-- Modelled from the spec: the ordering mode `{Serial, Random}` (missing
`input.rs`). -/
inductive ScanOrder where
  | Serial
  | Random
deriving Repr, DecidableEq

/-- Modelled from the spec: the parsed command-line options consumed by the
scan worker (missing `input.rs`); only the fields the TUI code reads. -/
structure Opts where
  addresses : List (List Char)
  ports : Option (List Nat)
  range : Option PortRange
  timeout : Nat
  tries : Nat
  batch_size : Nat
  greppable : Bool
  accessible : Bool
  scan_order : ScanOrder
  udp : Bool
  exclude_ports : Option (List Nat)
deriving Repr, DecidableEq

/-- Modelled from the spec: clap defaults for `Opts` (missing `input.rs`). -/
def Opts.default : Opts :=
  { addresses := []
    ports := none
    range := none
    timeout := 1500
    tries := 1
    batch_size := 4500
    greppable := false
    accessible := false
    scan_order := .Serial
    udp := false
    exclude_ports := none }

/-! ## Embedding of `src/tui_app/scan_config/model.rs` (`ScanConfig`)

`Instant` timestamps are modelled as `Nat`; the time-dependent button
activation methods are not needed by any claim and are omitted. -/

structure ScanConfig where
  targets : List (List Char)
  ports : Option (List Char)
  timeout : Nat
  batch_size : Nat
  targets_input : TextInput
  ports_input : TextInput
  selected_field : SelectedField
  scan_button_mode : ButtonMode
  button_activation_until : Option Nat
  button_restore_mode : Option ButtonMode
deriving Repr, DecidableEq

def ScanConfig.default : ScanConfig :=
  { targets := []
    ports := none
    timeout := 1500
    batch_size := 4500
    targets_input := TextInput.new
    ports_input := TextInput.new
    selected_field := .None
    scan_button_mode := ButtonMode.default
    button_activation_until := none
    button_restore_mode := none }

def ScanConfig.set_selected_field (c : ScanConfig) (field : SelectedField) : ScanConfig :=
  { c with
    selected_field := field
    scan_button_mode := if field = .ScanButton then .Selected else .Normal }

def ScanConfig.deselect_all (c : ScanConfig) : ScanConfig :=
  { c with selected_field := .None, scan_button_mode := .Normal }

/-- The field-cycle transition shared verbatim by `Model::next_field`
(`src/tui_app/model.rs`) and `ScanConfig::next_field`
(`src/tui_app/scan_config/model.rs`). -/
def nextFieldSel : SelectedField → SelectedField
  | .None => .Targets
  | .Targets => .Ports
  | .Ports => .Options
  | .Options => .ScanButton
  | .ScanButton => .Targets

/-- The field-cycle transition shared verbatim by `Model::prev_field` and
`ScanConfig::prev_field`. -/
def prevFieldSel : SelectedField → SelectedField
  | .None => .ScanButton
  | .Targets => .ScanButton
  | .Ports => .Targets
  | .Options => .Ports
  | .ScanButton => .Options

def ScanConfig.next_field (c : ScanConfig) : ScanConfig :=
  let f := nextFieldSel c.selected_field
  { c with
    selected_field := f
    scan_button_mode := if f = .ScanButton then .Selected else .Normal }

def ScanConfig.prev_field (c : ScanConfig) : ScanConfig :=
  let f := prevFieldSel c.selected_field
  { c with
    selected_field := f
    scan_button_mode := if f = .ScanButton then .Selected else .Normal }

/-! ## Embedding of `src/tui_app/scan_config/into_opts.rs` -/

inductive BuildOptsFromScanConfigError where
  | NoTargets
  | ClapParse (msg : List Char)
deriving Repr, DecidableEq

/-- The port-flag shape chosen by `build_opts_from_scan_config`: no flag,
`--range <trimmed>`, or `--ports <trimmed>`. -/
inductive PortArg where
  | NoPortFlag
  | RangeFlag (s : List Char)
  | PortsFlag (s : List Char)
deriving Repr, DecidableEq

/-- Modelled from the spec: parse of a decimal `u16`-ranged number (missing
`input.rs` / clap value parsing). -/
def parseU16? (l : List Char) : Option Nat :=
  if l.isEmpty then none
  else if l.all Char.isDigit then
    let n := l.foldl (fun acc c => acc * 10 + (c.toNat - 48)) 0
    if n ≤ 65535 then some n else none
  else none

/-- Modelled from the spec: parse of `--range start-end` (missing `input.rs`). -/
def parseRange? (s : List Char) : Option PortRange :=
  match splitOnChar '-' s with
  | [a, b] =>
    match parseU16? a, parseU16? b with
    | some x, some y => some ⟨x, y⟩
    | _, _ => none
  | _ => none

/-- Modelled from the spec: parse of `--ports p1,p2,...` (missing `input.rs`). -/
def parsePortsList? (s : List Char) : Option (List Nat) :=
  let parts := (splitOnChar ',' s).map parseU16?
  if parts.all Option.isSome then some (parts.map (fun o => o.getD 0)) else none

/-- Modelled from the spec: `Opts::try_parse_from` on the argv assembled by
`build_opts_from_scan_config` (missing `input.rs`). The `--addresses`,
`--timeout` and `--batch-size` values always parse (addresses is an arbitrary
comma-delimited string list; the numbers are rendered from integers); the port
flags parse as `u16` values or fail. -/
def parseOptsFromArgs (addresses_text : List Char) (portArg : PortArg)
    (timeout batch_size : Nat) : Except (List Char) Opts :=
  let base := { Opts.default with
    addresses := splitOnChar ',' addresses_text
    timeout := timeout
    batch_size := batch_size }
  match portArg with
  | .NoPortFlag => .ok base
  | .RangeFlag s =>
    match parseRange? s with
    | some r => .ok { base with range := some r }
    | none => .error s
  | .PortsFlag s =>
    match parsePortsList? s with
    | some ps => .ok { base with ports := some ps }
    | none => .error s

/-- The combined addresses text of `build_opts_from_scan_config`: the current
input buffer, else the confirmed targets joined with commas, else empty. -/
def ScanConfig.addressesText (cfg : ScanConfig) : List Char :=
  if !cfg.targets_input.is_empty then cfg.targets_input.text
  else if !cfg.targets.isEmpty then joinChar ',' cfg.targets
  else []

def build_opts_from_scan_config (cfg : ScanConfig) :
    Except BuildOptsFromScanConfigError Opts :=
  let addresses_text := cfg.addressesText
  if (trimChars addresses_text).isEmpty then .error .NoTargets
  else
    let ports_candidate : Option (List Char) :=
      if !cfg.ports_input.is_empty then some cfg.ports_input.text else cfg.ports
    let portArg : PortArg :=
      match ports_candidate with
      | none => .NoPortFlag
      | some s =>
        let trimmed := trimChars s
        if trimmed.isEmpty then .NoPortFlag
        else if !trimmed.contains ',' && trimmed.contains '-' then .RangeFlag trimmed
        else .PortsFlag trimmed
    match parseOptsFromArgs addresses_text portArg cfg.timeout cfg.batch_size with
    | .error e => .error (.ClapParse e)
    | .ok opts =>
      if opts.ports.isNone && opts.range.isNone then
        .ok { opts with range := some ⟨1, 65535⟩ }
      else .ok opts

/-! ## Embedding of `src/tui_app/model.rs`

`model.rs` declares its own `ScanConfig` struct (without the selection/button
fields of `scan_config/model.rs`); it is named `AppScanConfig` here because
Lean forbids two structures with the same name. -/

structure AppScanConfig where
  targets : List (List Char)
  ports : Option (List Char)
  timeout : Nat
  batch_size : Nat
  targets_input : TextInput
  ports_input : TextInput
deriving Repr, DecidableEq

def AppScanConfig.default : AppScanConfig :=
  { targets := []
    ports := none
    timeout := 1500
    batch_size := 4500
    targets_input := TextInput.new
    ports_input := TextInput.new }

inductive RunningState where
  | Running
  | Done
deriving Repr, DecidableEq

structure Model where
  running_state : RunningState
  opts : Opts
  scan_config : AppScanConfig
  selected_field : SelectedField
  hovered_field : HoveredField
  output_buffer : OutputBuffer
  banner_collapsed : Bool
  scan_button_state : ScanButtonState
deriving Repr, DecidableEq

def Model.new : Model :=
  { running_state := .Running
    opts := Opts.default
    scan_config := AppScanConfig.default
    selected_field := .None
    hovered_field := .None
    output_buffer := OutputBuffer.new
    banner_collapsed := false
    scan_button_state := ScanButtonState.default }

def Model.set_should_quit (m : Model) (should_quit : Bool) : Model :=
  { m with running_state := if should_quit then .Done else .Running }

def Model.toggle_banner_collapsed (m : Model) : Model :=
  { m with banner_collapsed := !m.banner_collapsed }

def Model.set_scan_button_state (m : Model) (state : ScanButtonState) : Model :=
  { m with scan_button_state := state }

def Model.set_selected_field (m : Model) (field : SelectedField) : Model :=
  let m := { m with selected_field := field }
  if m.selected_field = .ScanButton then
    { m with scan_button_state := .Selected }
  else m

def Model.deselect_all (m : Model) : Model :=
  { m with selected_field := .None, scan_button_state := .Normal }

def Model.next_field (m : Model) : Model :=
  { m with selected_field := nextFieldSel m.selected_field }

def Model.prev_field (m : Model) : Model :=
  { m with selected_field := prevFieldSel m.selected_field }

/-- Helper for the `match self.selected_field` dispatch shared by every
text-editing method of `Model`: apply `f` to the input of the selected field. -/
def Model.onSelectedInput (m : Model) (f : TextInput → TextInput) : Model :=
  match m.selected_field with
  | .Targets => { m with scan_config :=
      { m.scan_config with targets_input := f m.scan_config.targets_input } }
  | .Ports => { m with scan_config :=
      { m.scan_config with ports_input := f m.scan_config.ports_input } }
  | _ => m

def Model.add_char (m : Model) (c : Char) : Model :=
  m.onSelectedInput (fun i => i.insert_char c)

def Model.remove_previous_char (m : Model) : Model :=
  m.onSelectedInput TextInput.remove_previous_char

def Model.remove_next_char (m : Model) : Model :=
  m.onSelectedInput TextInput.remove_next_char

def Model.delete_previous_word (m : Model) : Model :=
  m.onSelectedInput TextInput.delete_previous_word

def Model.delete_next_word (m : Model) : Model :=
  m.onSelectedInput TextInput.delete_next_word

def Model.move_cursor_to_previous_word (m : Model) : Model :=
  m.onSelectedInput TextInput.move_cursor_to_previous_word

def Model.move_cursor_to_next_word (m : Model) : Model :=
  m.onSelectedInput TextInput.move_cursor_to_next_word

def Model.move_cursor_left (m : Model) : Model :=
  m.onSelectedInput TextInput.move_cursor_left

def Model.move_cursor_right (m : Model) : Model :=
  m.onSelectedInput TextInput.move_cursor_right

def Model.confirm_input (m : Model) : Model :=
  match m.selected_field with
  | .Targets =>
    let cfg := m.scan_config
    let cfg :=
      if !cfg.targets_input.is_empty then
        { cfg with targets :=
            (((splitOnChar ',' cfg.targets_input.text).map trimChars).filter
              (fun s => !s.isEmpty)) }
      else cfg
    { m with scan_config := { cfg with targets_input := cfg.targets_input.clear } }
  | .Ports =>
    let cfg := m.scan_config
    let cfg :=
      if !cfg.ports_input.is_empty then { cfg with ports := some cfg.ports_input.text }
      else { cfg with ports := none }
    { m with scan_config := { cfg with ports_input := cfg.ports_input.clear } }
  | _ => m

/-! ## Embedding of `src/tui_app/message.rs` -/

inductive AppMsg where
  | Quit
  | ToggleBanner
  | NextField
  | PrevField
  | DeselectAll
  | ButtonActivate
  | StartScan
  | ConfirmInput
deriving Repr, DecidableEq

inductive ScanConfigMsg where
  | SelectField (field : SelectedField)
  | AddChar (c : Char)
  | RemovePrevChar
  | RemoveNextChar
  | DeletePrevWord
  | DeleteNextWord
  | MoveCursorLeft
  | MoveCursorRight
  | MovePrevWord
  | MoveNextWord
deriving Repr, DecidableEq

inductive ResultsMsg where
  | ScrollUp (n : Nat)
  | ScrollDown (n : Nat)
  | ScrollToTop
  | ScrollToBottom
deriving Repr, DecidableEq

inductive Message where
  | App (m : AppMsg)
  | ScanConfig (m : ScanConfigMsg)
  | Results (m : ResultsMsg)
deriving Repr, DecidableEq

/-! ## Embedding of `src/tui_app/update.rs` -/

/-- `update`: handle one message; the returned `Option Message` is the
follow-up message supporting cascading. -/
def update (model : Model) (msg : Message) : Model × Option Message :=
  match msg with
  | .App a =>
    match a with
    | .Quit => (model.set_should_quit true, none)
    | .ToggleBanner => (model.toggle_banner_collapsed, none)
    | .NextField => (model.next_field, none)
    | .PrevField => (model.prev_field, none)
    | .DeselectAll => (model.deselect_all, none)
    | .ConfirmInput => (model.confirm_input, none)
    | .ButtonActivate =>
      let model := model.set_scan_button_state .Active
      let model := model.set_scan_button_state .Normal
      (model, some (.App .StartScan))
    | .StartScan =>
      ({ model with output_buffer :=
          model.output_buffer.push_line "[Scan starting with current configuration]" },
       none)
  | .ScanConfig c =>
    (match c with
     | .SelectField field => model.set_selected_field field
     | .AddChar ch => model.add_char ch
     | .RemovePrevChar => model.remove_previous_char
     | .RemoveNextChar => model.remove_next_char
     | .DeletePrevWord => model.delete_previous_word
     | .DeleteNextWord => model.delete_next_word
     | .MoveCursorLeft => model.move_cursor_left
     | .MoveCursorRight => model.move_cursor_right
     | .MovePrevWord => model.move_cursor_to_previous_word
     | .MoveNextWord => model.move_cursor_to_next_word,
     none)
  | .Results r =>
    (match r with
     | .ScrollUp n => { model with output_buffer := model.output_buffer.scroll_up n }
     | .ScrollDown n => { model with output_buffer := model.output_buffer.scroll_down n }
     | .ScrollToTop => { model with output_buffer := model.output_buffer.scroll_to_top }
     | .ScrollToBottom =>
       { model with output_buffer := model.output_buffer.scroll_to_bottom },
     none)

/-- The cascading dispatch loop of `run_loop` (`src/tui_app/app.rs`): keep
feeding the follow-up message back into `update` until it returns `none`.
Written with explicit fuel; `some` means the loop exited within `fuel` calls. -/
def dispatchCascade : Nat → Model → Message → Option Model
  | 0, _, _ => none
  | fuel + 1, m, msg =>
    match update m msg with
    | (m1, none) => some m1
    | (m1, some msg2) => dispatchCascade fuel m1 msg2

/-! ## Embedding of `spawn_scan_worker` (`src/tui_app/app.rs`)

The worker thread's observable behaviour is the sequence of
`ResultsMsg::AppendLine` messages it sends. Each sent line is modelled by a
`WorkerLine` constructor carrying exactly the data interpolated into the
corresponding `format!` string; IP addresses are modelled as `String`. The
address resolver (`crate::address::parse_addresses`) and the scanner
(`crate::scanner::Scanner::run`) are not under `src/`, so their outputs —
the resolved IP list and the socket list — are taken as arguments. -/

inductive WorkerLine where
  /-- `"[Scan starting]"` -/
  | scanStart
  /-- `"No IPs could be resolved, aborting scan."` -/
  | noIPs
  /-- the empty line sent before each per-IP report -/
  | blank
  /-- `"{ip} -> [{ports joined with commas}]"` -/
  | report (ip : String) (ports : List Nat)
  /-- the guidance text naming the batch size and recommending lowering it or
  raising the timeout -/
  | guidance (ip : String) (batch_size : Nat)
  /-- `"[Error] {e}"` -/
  | errLine (e : BuildOptsFromScanConfigError)
deriving Repr, DecidableEq

/-- One step of the `ports_per_ip` accumulation:
`ports_per_ip.entry(socket.ip()).or_insert_with(Vec::new).push(socket.port())`,
on an insertion-ordered association list standing for the `HashMap`. -/
def insertSocket (m : List (String × List Nat)) (s : String × Nat) :
    List (String × List Nat) :=
  match m with
  | [] => [(s.1, [s.2])]
  | (k, ps) :: rest =>
    if k = s.1 then (k, ps ++ [s.2]) :: rest else (k, ps) :: insertSocket rest s

/-- The `ports_per_ip` map built by the `for socket in scan_result` loop. -/
def buildPortsPerIp (scan_result : List (String × Nat)) : List (String × List Nat) :=
  scan_result.foldl insertSocket []

/-- `ports_per_ip.get(ip)`. -/
def lookupPorts (m : List (String × List Nat)) (ip : String) : Option (List Nat) :=
  match m with
  | [] => none
  | (k, ps) :: rest => if k = ip then some ps else lookupPorts rest ip

/-- The ports of `ip` in scanner-output order: the projection of the socket
list onto the sockets whose address is `ip`. -/
def projPorts (scan_result : List (String × Nat)) (ip : String) : List Nat :=
  (scan_result.filter (fun s => s.1 = ip)).map Prod.snd

/-- The per-IP report of the worker's reporting loop: the `"ip -> [...]"` line
when `ports_per_ip.get(ip)` has an entry, the guidance message otherwise. -/
def reportOf (scan_result : List (String × Nat)) (batch_size : Nat) (ip : String) :
    WorkerLine :=
  match lookupPorts (buildPortsPerIp scan_result) ip with
  | some ports => .report ip ports
  | none => .guidance ip batch_size

/-- The full sequence of lines sent by `spawn_scan_worker`, given the resolved
IP list and the scanner's socket list. -/
def spawn_scan_worker_lines (cfg : ScanConfig) (resolved_ips : List String)
    (scan_result : List (String × Nat)) : List WorkerLine :=
  match build_opts_from_scan_config cfg with
  | .error e => [.errLine e]
  | .ok _opts =>
    .scanStart ::
      (if resolved_ips.isEmpty then [.noIPs]
       else ((resolved_ips.map
         (fun ip => [WorkerLine.blank, reportOf scan_result cfg.batch_size ip])).flatten))

/-- The report lines (per-IP `"ip -> [...]"` or guidance lines) among the
worker's output. -/
def extractReports (ls : List WorkerLine) : List WorkerLine :=
  ls.filter (fun l =>
    match l with
    | .report _ _ => true
    | .guidance _ _ => true
    | _ => false)

/-! ## Model of the PortSequencer (spec section 4.1)

The port-sequencing code (`crate::port_strategy`, `crate::input` range
validation) is not under `src/`. Modelled from the spec: resolve the port
universe, subtract the exclusions, deduplicate, order; fail with
`InvalidSpec` if `Range.start > Range.end` or any port value is `0` or
exceeds `65535`, producing no partial sequence. -/

inductive PortSpecKind where
  | AllPorts
  | Range (start «end» : Nat)
  | ExplicitList (ports : List Nat)
deriving Repr, DecidableEq

inductive PortOrder where
  | Serial
  | Random
deriving Repr, DecidableEq

structure PortSpec where
  kind : PortSpecKind
  exclude : List Nat
  order : PortOrder
deriving Repr, DecidableEq

inductive PortSeqError where
  | InvalidSpec
deriving Repr, DecidableEq

/-- The port values named by a specification: range endpoints or explicit
members. -/
def declaredPorts : PortSpecKind → List Nat
  | .AllPorts => []
  | .Range s e => [s, e]
  | .ExplicitList ps => ps

/-- Modelled from the spec: specification validity — `start ≤ end` and every
named port within `[1, 65535]`. -/
def validSpecB : PortSpecKind → Bool
  | .AllPorts => true
  | .Range s e => decide (s ≤ e) && decide (1 ≤ s) && decide (e ≤ 65535)
  | .ExplicitList ps => ps.all (fun p => decide (1 ≤ p) && decide (p ≤ 65535))

/-- Modelled from the spec: the port universe of a valid specification. -/
def portUniverse : PortSpecKind → List Nat
  | .AllPorts => List.range' 1 65535
  | .Range s e => if e < s then [] else List.range' s (e - s + 1)
  | .ExplicitList ps => ps

/-- Modelled from the spec: the PortSequencer. `Serial` sorts ascending;
`Random` is a permutation drawn from a process-local random source, modelled
here as the identity permutation of the deduplicated sequence. -/
def port_sequence (spec : PortSpec) : Except PortSeqError (List Nat) :=
  if validSpecB spec.kind then
    let u := portUniverse spec.kind
    let filtered := u.filter (fun p => !spec.exclude.contains p)
    let deduped := filtered.eraseDups
    match spec.order with
    | .Serial => .ok (deduped.mergeSort (fun a b => decide (a ≤ b)))
    | .Random => .ok deduped
  else .error .InvalidSpec

/-! ## Model of the ScanEngine's batch concurrency (spec sections 4.2 and 5)

The scanner (`crate::scanner`) is not under `src/`. Modelled from the spec:
the ordered work set is partitioned into consecutive batches of size
`concurrency_limit`; a batch is dispatched only when nothing is in flight,
and the engine waits for the whole batch to settle before dispatching the
next. `in_flight` counts the attempts of the currently dispatched batch. -/

/-- Modelled from the spec: partition the work set into consecutive batches of
`limit` work units (`max 1` guards the degenerate `limit = 0`, which the
`ScanConfig` invariant `concurrency_limit ≥ 1` excludes). -/
def chunkBatches (limit : Nat) : List α → List (List α)
  | [] => []
  | x :: xs =>
    ((x :: xs).take (max 1 limit)) :: chunkBatches limit ((x :: xs).drop (max 1 limit))
termination_by l => l.length
decreasing_by
  simp only [List.length_drop]
  have h1 : 1 ≤ max 1 limit := le_max_left 1 limit
  simp only [List.length_cons]
  omega

/-- Modelled from the spec: engine state — batches not yet dispatched, and the
number of attempts currently in flight. -/
structure EngineState (α : Type) where
  pending : List (List α)
  in_flight : Nat
deriving Repr, DecidableEq

/-- Modelled from the spec: one engine transition — dispatch the next batch
once nothing is in flight, or let the current batch settle. -/
inductive EngineStep : EngineState α → EngineState α → Prop where
  | dispatch (b : List α) (rest : List (List α)) :
      EngineStep ⟨b :: rest, 0⟩ ⟨rest, b.length⟩
  | settle (pending : List (List α)) (n : Nat) :
      EngineStep ⟨pending, n⟩ ⟨pending, 0⟩

/-- The engine's initial state for a work set and a concurrency limit. -/
def initState (limit : Nat) (work : List α) : EngineState α :=
  ⟨chunkBatches limit work, 0⟩

/-- The states an engine run can pass through. -/
def EngineReachable (limit : Nat) (work : List α) (s : EngineState α) : Prop :=
  Relation.ReflTransGen EngineStep (initState limit work) s

instance {ε α : Type} [DecidableEq ε] [DecidableEq α] : DecidableEq (Except ε α) :=
  fun x y =>
    match x, y with
    | .ok a, .ok b => if h : a = b then isTrue (by rw [h]) else isFalse (by simp [h])
    | .error a, .error b => if h : a = b then isTrue (by rw [h]) else isFalse (by simp [h])
    | .ok _, .error _ => isFalse (by simp)
    | .error _, .ok _ => isFalse (by simp)

/-! ## Concrete sample states used by witnesses and counterexamples -/

/-- A model with the `Targets` field selected. -/
def sampleModelTargets : Model := { Model.new with selected_field := .Targets }

/-- A scan configuration with the `Ports` field selected. -/
def sampleCfgPorts : ScanConfig := { ScanConfig.default with selected_field := .Ports }

/-- A scan configuration with one confirmed target `"a"` and no port spec. -/
def sampleCfgOneTarget : ScanConfig := { ScanConfig.default with targets := [['a']] }

/-- The `Opts` value `build_opts_from_scan_config` produces for
`sampleCfgOneTarget`: addresses `["a"]`, defaults elsewhere, and the default
full port range. -/
def c4opts : Opts :=
  { Opts.default with addresses := [['a']], range := some ⟨1, 65535⟩ }

/-- Modelled from the spec: the engine invariant — nothing in flight beyond
the limit, and every pending batch within the limit. -/
def EngineInv (limit : Nat) (s : EngineState α) : Prop :=
  s.in_flight ≤ limit ∧ ∀ b ∈ s.pending, b.length ≤ limit

/-! ## Lemmas about the text-input primitives -/

theorem skipBackWhile_le (f : Char → Bool) (chars : List Char) (p : Nat) :
    skipBackWhile f chars p ≤ p := by
  induction p with
  | zero => simp [skipBackWhile]
  | succ p ih =>
    rw [skipBackWhile]
    split
    · exact Nat.le_trans ih (Nat.le_succ p)
    · exact Nat.le_refl _

theorem skipFwdWhile_le (f : Char → Bool) (chars : List Char) (p : Nat)
    (h : p ≤ chars.length) : skipFwdWhile f chars p ≤ chars.length := by
  rw [skipFwdWhile]
  split
  next hc => exact skipFwdWhile_le f chars (p + 1) hc.1
  next => exact h
termination_by chars.length - p
decreasing_by omega

theorem length_insertAtByte (c : Char) (l : List Char) (b : Nat) :
    (insertAtByte c l b).length = l.length + 1 := by
  induction l generalizing b with
  | nil => simp [insertAtByte]
  | cons x xs ih =>
    rw [insertAtByte]
    split <;> simp [ih]

/-- Inserting at the byte offset of the `n`-th character inserts at character
position `n`: the UTF-8 byte arithmetic of `String::insert` lands on the
character boundary the cursor denotes, for any text, multi-byte or not. -/
theorem insertAtByte_eq_take_drop (c : Char) (l : List Char) (n : Nat)
    (h : n ≤ l.length) :
    insertAtByte c l ((l.take n).map Char.utf8Size).sum = l.take n ++ c :: l.drop n := by
  induction l generalizing n with
  | nil =>
    have hn : n = 0 := Nat.le_zero.mp (by simpa using h)
    subst hn
    simp [insertAtByte]
  | cons x xs ih =>
    cases n with
    | zero => simp [insertAtByte]
    | succ m =>
      simp only [List.take_succ_cons, List.map_cons, List.sum_cons, List.drop_succ_cons]
      rw [insertAtByte]
      have hpos := Char.utf8Size_pos x
      rw [if_neg (by omega)]
      have harith : x.utf8Size + ((xs.take m).map Char.utf8Size).sum - x.utf8Size
          = ((xs.take m).map Char.utf8Size).sum := by omega
      rw [harith, ih m (by simpa using h)]
      simp

theorem inv_insert_char (t : TextInput) (c : Char) : (t.insert_char c).Inv := by
  simp only [TextInput.insert_char, TextInput.move_cursor_right, TextInput.Inv]
  omega

theorem inv_remove_previous_char (t : TextInput) (h : t.Inv) :
    t.remove_previous_char.Inv := by
  unfold TextInput.Inv at *
  unfold TextInput.remove_previous_char
  split
  · simp only [TextInput.move_cursor_left, List.length_append, List.length_take,
      List.length_drop]
    omega
  · exact h

theorem inv_remove_next_char (t : TextInput) (h : t.Inv) : t.remove_next_char.Inv := by
  unfold TextInput.Inv at *
  unfold TextInput.remove_next_char
  split
  · simp only [List.length_append, List.length_take, List.length_drop]
    omega
  · exact h

theorem inv_delete_previous_word (t : TextInput) (h : t.Inv) :
    t.delete_previous_word.Inv := by
  unfold TextInput.Inv at *
  unfold TextInput.delete_previous_word
  split
  · exact h
  · simp only [List.length_append, List.length_take, List.length_drop]
    have h1 := skipBackWhile_le Char.isWhitespace t.text t.cursor
    have h2 := skipBackWhile_le (fun c => !c.isWhitespace) t.text
      (skipBackWhile Char.isWhitespace t.text t.cursor)
    omega

theorem inv_delete_next_word (t : TextInput) (h : t.Inv) : t.delete_next_word.Inv := by
  unfold TextInput.Inv at *
  by_cases hc : t.text.length ≤ t.cursor
  · simpa [TextInput.delete_next_word, hc] using h
  · simp only [TextInput.delete_next_word, hc, if_false, List.length_append,
      List.length_take, List.length_drop]
    omega

theorem inv_move_cursor_to_previous_word (t : TextInput) (h : t.Inv) :
    t.move_cursor_to_previous_word.Inv := by
  unfold TextInput.Inv at *
  unfold TextInput.move_cursor_to_previous_word
  split
  · exact h
  · simp only
    have h1 := skipBackWhile_le Char.isWhitespace t.text t.cursor
    have h2 := skipBackWhile_le (fun c => !c.isWhitespace) t.text
      (skipBackWhile Char.isWhitespace t.text t.cursor)
    omega

theorem inv_move_cursor_to_next_word (t : TextInput) (h : t.Inv) :
    t.move_cursor_to_next_word.Inv := by
  unfold TextInput.Inv at *
  unfold TextInput.move_cursor_to_next_word
  split
  next hc => exact h
  next hc =>
    simp only
    have h1 := skipFwdWhile_le (fun c => !c.isWhitespace) t.text t.cursor (by omega)
    exact skipFwdWhile_le Char.isWhitespace t.text _ h1

theorem inv_move_cursor_left (t : TextInput) (h : t.Inv) : t.move_cursor_left.Inv := by
  unfold TextInput.Inv at *
  simp only [TextInput.move_cursor_left]
  omega

theorem inv_move_cursor_right (t : TextInput) : t.move_cursor_right.Inv := by
  unfold TextInput.Inv
  simp only [TextInput.move_cursor_right]
  omega

theorem inv_set_cursor (t : TextInput) (p : Nat) : (t.set_cursor p).Inv := by
  unfold TextInput.Inv
  simp only [TextInput.set_cursor]
  omega

theorem insert_char_at_cursor (t : TextInput) (c : Char) (h : t.Inv) :
    (t.insert_char c).text = t.text.take t.cursor ++ c :: t.text.drop t.cursor := by
  simp only [TextInput.insert_char, TextInput.move_cursor_right]
  exact insertAtByte_eq_take_drop c t.text t.cursor h

/-- C8: every `TextInput` operation preserves the invariant that the cursor is
at most the number of characters in the text (`new` and `with_text` establish
it; `set_text`, `clear`, `set_cursor` re-establish it; every editing and
cursor-movement operation preserves it), and `insert_char` inserts at the
cursor's character position — the byte-offset insertion of `String::insert`
lands exactly on the cursor-th character boundary even for multi-byte text. -/
theorem textInput_cursor_invariant :
    TextInput.new.Inv ∧
    (∀ s, (TextInput.with_text s).Inv) ∧
    (∀ t s, (TextInput.set_text t s).Inv) ∧
    (∀ t : TextInput, t.clear.Inv) ∧
    (∀ (t : TextInput) c, (t.insert_char c).Inv) ∧
    (∀ t : TextInput, t.Inv → t.remove_previous_char.Inv) ∧
    (∀ t : TextInput, t.Inv → t.remove_next_char.Inv) ∧
    (∀ t : TextInput, t.Inv → t.delete_previous_word.Inv) ∧
    (∀ t : TextInput, t.Inv → t.delete_next_word.Inv) ∧
    (∀ t : TextInput, t.Inv → t.move_cursor_to_previous_word.Inv) ∧
    (∀ t : TextInput, t.Inv → t.move_cursor_to_next_word.Inv) ∧
    (∀ t : TextInput, t.Inv → t.move_cursor_left.Inv) ∧
    (∀ t : TextInput, t.move_cursor_right.Inv) ∧
    (∀ (t : TextInput) p, (t.set_cursor p).Inv) ∧
    (∀ (t : TextInput) c, t.Inv →
      (t.insert_char c).text = t.text.take t.cursor ++ c :: t.text.drop t.cursor) :=
  ⟨Nat.le_refl _, fun s => Nat.le_refl s.length, fun _ s => Nat.le_refl s.length,
   fun _ => Nat.le_refl _, inv_insert_char, inv_remove_previous_char,
   inv_remove_next_char, inv_delete_previous_word, inv_delete_next_word,
   inv_move_cursor_to_previous_word, inv_move_cursor_to_next_word,
   inv_move_cursor_left, inv_move_cursor_right, inv_set_cursor,
   insert_char_at_cursor⟩

/-- Witness for C8 at a concrete multi-byte input: text `['a', 'é', 'b']`
(where `'é'` occupies two UTF-8 bytes) with the cursor at character 1. -/
theorem textInput_cursor_invariant_witness :
    ((⟨['a', 'é', 'b'], 1⟩ : TextInput).Inv ∧
      (⟨['a', 'é', 'b'], 1⟩ : TextInput).remove_previous_char.Inv) ∧
    ((⟨['a', 'é', 'b'], 1⟩ : TextInput).insert_char 'x').text
      = ['a', 'x', 'é', 'b'] := by
  refine ⟨⟨by decide, textInput_cursor_invariant.2.2.2.2.2.1 _ (by decide)⟩, ?_⟩
  have h := textInput_cursor_invariant.2.2.2.2.2.2.2.2.2.2.2.2.2.2
    ⟨['a', 'é', 'b'], 1⟩ 'x' (by decide)
  simpa using h

/-! ## Field-cycle lemmas (C9) -/

theorem nextFieldSel_prevFieldSel (f : SelectedField) (h : f ≠ .None) :
    nextFieldSel (prevFieldSel f) = f := by
  cases f
  · exact absurd rfl h
  all_goals rfl

theorem prevFieldSel_nextFieldSel (f : SelectedField) (h : f ≠ .None) :
    prevFieldSel (nextFieldSel f) = f := by
  cases f
  · exact absurd rfl h
  all_goals rfl

/-- C9: for every selected field other than `None`, `next_field` after
`prev_field` and `prev_field` after `next_field` restore the field: the two
navigation operations are mutually inverse on the cycle
Targets → Ports → Options → ScanButton, for both `Model` (model.rs) and
`ScanConfig` (scan_config/model.rs). -/
theorem next_prev_field_inverse :
    (∀ m : Model, m.selected_field ≠ .None →
      m.prev_field.next_field.selected_field = m.selected_field ∧
      m.next_field.prev_field.selected_field = m.selected_field) ∧
    (∀ c : ScanConfig, c.selected_field ≠ .None →
      c.prev_field.next_field.selected_field = c.selected_field ∧
      c.next_field.prev_field.selected_field = c.selected_field) := by
  constructor
  · intro m h
    constructor
    · simp only [Model.next_field, Model.prev_field]
      exact nextFieldSel_prevFieldSel m.selected_field h
    · simp only [Model.next_field, Model.prev_field]
      exact prevFieldSel_nextFieldSel m.selected_field h
  · intro c h
    constructor
    · simp only [ScanConfig.next_field, ScanConfig.prev_field]
      exact nextFieldSel_prevFieldSel c.selected_field h
    · simp only [ScanConfig.next_field, ScanConfig.prev_field]
      exact prevFieldSel_nextFieldSel c.selected_field h

/-- Witness for C9 at concrete states: a `Model` with `Targets` selected and a
`ScanConfig` with `Ports` selected. -/
theorem next_prev_field_inverse_witness :
    (sampleModelTargets.prev_field.next_field.selected_field
        = sampleModelTargets.selected_field ∧
     sampleModelTargets.next_field.prev_field.selected_field
        = sampleModelTargets.selected_field) ∧
    (sampleCfgPorts.prev_field.next_field.selected_field
        = sampleCfgPorts.selected_field ∧
     sampleCfgPorts.next_field.prev_field.selected_field
        = sampleCfgPorts.selected_field) :=
  ⟨next_prev_field_inverse.1 sampleModelTargets (by decide),
   next_prev_field_inverse.2 sampleCfgPorts (by decide)⟩

/-! ## Cascade termination (C6) -/

/-- C6: the cascading dispatch loop settles after at most two `update` calls:
`dispatchCascade` always succeeds with fuel 2; a follow-up message arises only
from `Message::App(AppMsg::ButtonActivate)` and is always
`AppMsg::StartScan`; and `update` on `StartScan` returns no follow-up. -/
theorem update_cascade_terminates :
    (∀ (m : Model) (msg : Message), (dispatchCascade 2 m msg).isSome = true) ∧
    (∀ (m : Model) (msg msg2 : Message), (update m msg).2 = some msg2 →
      msg = .App .ButtonActivate ∧ msg2 = .App .StartScan) ∧
    (∀ m : Model, (update m (.App .StartScan)).2 = none) := by
  refine ⟨?_, ?_, fun m => rfl⟩
  · intro m msg
    rcases msg with a | c | r
    · cases a <;> rfl
    · rfl
    · rfl
  · intro m msg msg2 h
    rcases msg with a | c | r
    · cases a <;> simp_all [update]
    · simp [update] at h
    · simp [update] at h

/-- Witness for C6: the one message with a follow-up, at the initial model. -/
theorem update_cascade_terminates_witness :
    Message.App .ButtonActivate = Message.App .ButtonActivate ∧
    Message.App .StartScan = Message.App .StartScan :=
  update_cascade_terminates.2.1 Model.new (.App .ButtonActivate) (.App .StartScan) rfl

/-! ## Line-capacity invariant (C10) -/

theorem ResultsModel.push_line_max_lines (m : ResultsModel) (line : String) :
    (m.push_line line).max_lines = m.max_lines := rfl

theorem resultsModel_push_line_bound (m : ResultsModel) (line : String) :
    (m.push_line line).lines.length ≤ m.max_lines := by
  unfold ResultsModel.push_line
  by_cases hc : m.max_lines <
      (m.lines ++ (splitOnChar '\n' line.data).map (fun l => String.mk l)).length
  · simp only [hc, if_true, List.length_drop]
    omega
  · simp only [hc, if_false]
    omega

theorem outputBuffer_push_line_bound (b : OutputBuffer) (line : String) :
    (b.push_line line).lines.length ≤ b.max_lines := by
  unfold OutputBuffer.push_line
  by_cases hc : b.max_lines < (b.lines ++ [line]).length
  · simp only [hc, if_true, List.length_drop]
    omega
  · simp only [hc, if_false]
    omega

/-- C10: after every `push_line`/`push_lines` on a `ResultsModel` and every
`push_line` on an `OutputBuffer`, the number of stored lines is at most
`max_lines` (10000 by default): whenever an append — including the segments a
pushed string splits into at newline characters — would exceed the cap, the
oldest lines are dropped first. -/
theorem output_lines_capacity :
    ResultsModel.default.max_lines = 10000 ∧
    OutputBuffer.new.max_lines = 10000 ∧
    (∀ (m : ResultsModel) (line : String),
      (m.push_line line).lines.length ≤ m.max_lines) ∧
    (∀ (m : ResultsModel) (ls : List String), m.lines.length ≤ m.max_lines →
      (m.push_lines ls).lines.length ≤ m.max_lines) ∧
    (∀ (b : OutputBuffer) (line : String),
      (b.push_line line).lines.length ≤ b.max_lines) := by
  refine ⟨rfl, rfl, resultsModel_push_line_bound, ?_, outputBuffer_push_line_bound⟩
  intro m ls h
  induction ls generalizing m with
  | nil => exact h
  | cons l ls ih =>
    have hstep : m.push_lines (l :: ls) = (m.push_line l).push_lines ls := rfl
    rw [hstep]
    have hmax : (m.push_line l).max_lines = m.max_lines := rfl
    have := ih (m.push_line l) (by rw [hmax]; exact resultsModel_push_line_bound m l)
    rwa [hmax] at this

/-- Witness for C10: a two-line buffer receiving a string that splits into two
segments, overflowing the cap. -/
theorem output_lines_capacity_witness :
    ((⟨["a"], 0, 2⟩ : ResultsModel).push_lines ["b\nc"]).lines.length
      ≤ (⟨["a"], 0, 2⟩ : ResultsModel).max_lines :=
  output_lines_capacity.2.2.2.1 ⟨["a"], 0, 2⟩ ["b\nc"] (by decide)

/-! ## Empty-target rejection (C3) -/

/-- C3: a `ScanConfig` whose targets input buffer and confirmed target list
are both empty — or whose combined addresses text trims to whitespace — makes
`build_opts_from_scan_config` return `NoTargets` without building any `Opts`,
and makes the scan worker emit exactly one error line, dispatching no scan
work (its output is independent of any resolver or scanner result). -/
theorem no_targets_error :
    ∀ cfg : ScanConfig,
      ((cfg.targets_input.is_empty = true ∧ cfg.targets = []) ∨
        (trimChars cfg.addressesText).isEmpty = true) →
      build_opts_from_scan_config cfg = .error .NoTargets ∧
      ∀ (resolved_ips : List String) (scan_result : List (String × Nat)),
        spawn_scan_worker_lines cfg resolved_ips scan_result = [.errLine .NoTargets] := by
  intro cfg h
  have htrim : (trimChars cfg.addressesText).isEmpty = true := by
    rcases h with ⟨h1, h2⟩ | h
    · simp [ScanConfig.addressesText, h1, h2, trimChars]
    · exact h
  have hb : build_opts_from_scan_config cfg = .error .NoTargets := by
    unfold build_opts_from_scan_config
    simp [htrim]
  refine ⟨hb, ?_⟩
  intro resolved_ips scan_result
  simp [spawn_scan_worker_lines, hb]

/-- Witness for C3: the default (all-empty) configuration. -/
theorem no_targets_error_witness :
    build_opts_from_scan_config ScanConfig.default = .error .NoTargets ∧
    spawn_scan_worker_lines ScanConfig.default ["192.168.0.1"] [("192.168.0.1", 80)]
      = [.errLine .NoTargets] :=
  have h := no_targets_error ScanConfig.default (Or.inl ⟨rfl, rfl⟩)
  ⟨h.1, h.2 ["192.168.0.1"] [("192.168.0.1", 80)]⟩

/-! ## Default port universe (C4) -/

/-- C4: when no port specification is given (empty ports input and no
confirmed ports), any `Opts` built by `build_opts_from_scan_config` carries
`range = Some(PortRange{start: 1, end: 65535})` — the default port universe
is all ports. -/
theorem default_port_range :
    ∀ (cfg : ScanConfig) (opts : Opts),
      cfg.ports_input.is_empty = true → cfg.ports = none →
      build_opts_from_scan_config cfg = .ok opts →
      opts.range = some ⟨1, 65535⟩ := by
  intro cfg opts h1 h2 hok
  unfold build_opts_from_scan_config at hok
  by_cases htrim : (trimChars cfg.addressesText).isEmpty = true
  · simp [htrim] at hok
  · simp [htrim, h1, h2, parseOptsFromArgs, Opts.default] at hok
    subst hok
    rfl

/-- Witness for C4: the one-target, no-ports configuration. -/
theorem default_port_range_witness :
    c4opts.range = some ⟨1, 65535⟩ :=
  default_port_range sampleCfgOneTarget c4opts rfl rfl (by decide)

/-! ## Invalid port specifications (C5) -/

theorem validSpecB_eq_false (k : PortSpecKind)
    (h : (∃ s e, k = .Range s e ∧ e < s) ∨
      (∃ p, p ∈ declaredPorts k ∧ (p = 0 ∨ 65535 < p))) :
    validSpecB k = false := by
  cases k with
  | AllPorts =>
    rcases h with ⟨s, e, hk, _⟩ | ⟨p, hp, _⟩
    · exact PortSpecKind.noConfusion hk
    · simp [declaredPorts] at hp
  | Range s e =>
    rcases h with ⟨s', e', hk, hlt⟩ | ⟨p, hp, hbad⟩
    · injection hk with hs he
      subst hs; subst he
      simp only [validSpecB, Bool.and_eq_false_iff, decide_eq_false_iff_not]
      omega
    · simp only [declaredPorts, List.mem_cons, List.mem_singleton,
        List.not_mem_nil, or_false] at hp
      simp only [validSpecB, Bool.and_eq_false_iff, decide_eq_false_iff_not]
      omega
  | ExplicitList ps =>
    rcases h with ⟨s, e, hk, _⟩ | ⟨p, hp, hbad⟩
    · exact PortSpecKind.noConfusion hk
    · simp only [declaredPorts] at hp
      simp only [validSpecB, List.all_eq_false]
      refine ⟨p, hp, ?_⟩
      intro hc
      simp only [Bool.and_eq_true, decide_eq_true_eq] at hc
      omega

/-- C5: a port specification whose range has `start > end`, or that names any
port value equal to `0` or exceeding `65535`, makes the port-sequencing step
fail with `InvalidSpec`, producing no partial sequence. -/
theorem invalid_spec_error :
    ∀ spec : PortSpec,
      ((∃ s e, spec.kind = .Range s e ∧ e < s) ∨
        (∃ p, p ∈ declaredPorts spec.kind ∧ (p = 0 ∨ 65535 < p))) →
      port_sequence spec = .error .InvalidSpec := by
  intro spec h
  have hv : validSpecB spec.kind = false := validSpecB_eq_false spec.kind h
  unfold port_sequence
  simp [hv]

/-- Witness for C5: the spec scenario `Range{start=100, end=50}`. -/
theorem invalid_spec_error_witness :
    port_sequence ⟨.Range 100 50, [], .Serial⟩ = .error .InvalidSpec :=
  invalid_spec_error ⟨.Range 100 50, [], .Serial⟩ (Or.inl ⟨100, 50, rfl, by decide⟩)

/-! ## Concurrency ceiling (C2) -/

theorem length_le_of_mem_chunkBatches (limit : Nat) (l : List α) (b : List α)
    (hb : b ∈ chunkBatches limit l) : b.length ≤ max 1 limit := by
  match l with
  | [] => simp [chunkBatches] at hb
  | x :: xs =>
    rw [chunkBatches] at hb
    rcases List.mem_cons.mp hb with h1 | h2
    · subst h1
      simp only [List.length_take]
      exact min_le_left _ _
    · exact length_le_of_mem_chunkBatches limit ((x :: xs).drop (max 1 limit)) b h2
termination_by l.length
decreasing_by
  simp only [List.length_drop]
  have h1 : 1 ≤ max 1 limit := le_max_left 1 limit
  simp only [List.length_cons]
  omega

theorem engineStep_preserves_inv {α : Type} (limit : Nat) {s s' : EngineState α}
    (h : EngineInv limit s) (hs : EngineStep s s') : EngineInv limit s' := by
  cases hs with
  | dispatch b rest =>
    exact ⟨h.2 b (List.mem_cons_self b rest),
      fun b' hb' => h.2 b' (List.mem_cons_of_mem b hb')⟩
  | settle pending n => exact ⟨Nat.zero_le _, h.2⟩

/-- C2: for every configuration with `batch_size ≥ 1` (the `ScanConfig`
invariant) and every work set, every state the engine can reach has at most
`batch_size` attempts in flight. -/
theorem concurrency_limit_bound :
    ∀ (cfg : ScanConfig) (work : List (String × Nat)) (s : EngineState (String × Nat)),
      1 ≤ cfg.batch_size → EngineReachable cfg.batch_size work s →
      s.in_flight ≤ cfg.batch_size := by
  intro cfg work s hl hr
  have hinv : EngineInv cfg.batch_size s := by
    induction hr with
    | refl =>
      refine ⟨Nat.zero_le _, ?_⟩
      intro b hb
      have h1 := length_le_of_mem_chunkBatches cfg.batch_size work b hb
      have h2 : max 1 cfg.batch_size = cfg.batch_size := Nat.max_eq_right hl
      omega
    | tail hstep hlast ih => exact engineStep_preserves_inv cfg.batch_size ih hlast
  exact hinv.1

/-- Witness for C2: the default batch size at the initial state of a
three-unit work set. -/
theorem concurrency_limit_bound_witness :
    (initState sampleCfgOneTarget.batch_size
        [("a", 1), ("a", 2), ("a", 3)]).in_flight ≤ sampleCfgOneTarget.batch_size :=
  concurrency_limit_bound sampleCfgOneTarget [("a", 1), ("a", 2), ("a", 3)] _
    (by decide) Relation.ReflTransGen.refl

/-! ## The `ports_per_ip` grouping (C1, C7) -/

theorem lookupPorts_insertSocket (m : List (String × List Nat)) (s : String × Nat)
    (ip : String) :
    lookupPorts (insertSocket m s) ip =
      if s.1 = ip then some ((lookupPorts m ip).getD [] ++ [s.2])
      else lookupPorts m ip := by
  obtain ⟨si, sp⟩ := s
  induction m with
  | nil =>
    by_cases h : si = ip <;> simp [insertSocket, lookupPorts, h]
  | cons kv rest ih =>
    obtain ⟨k, ps⟩ := kv
    simp only [insertSocket]
    by_cases h1 : k = si
    · rw [if_pos h1]
      by_cases h2 : k = ip
      · rw [← h1, h2] at *
        simp [lookupPorts]
      · have h2s : ¬si = ip := by rw [← h1]; exact h2
        simp [lookupPorts, h2, h2s]
    · rw [if_neg h1]
      by_cases h2 : k = ip
      · have h1s : ¬si = ip := by rw [← h2]; intro hq; exact h1 hq.symm
        simp [lookupPorts, h2, h1s]
      · simp [lookupPorts, h2, ih]

theorem lookupPorts_foldl (l : List (String × Nat)) (m : List (String × List Nat))
    (ip : String) :
    lookupPorts (l.foldl insertSocket m) ip =
      match lookupPorts m ip with
      | some ps => some (ps ++ projPorts l ip)
      | none => if projPorts l ip = [] then none else some (projPorts l ip) := by
  induction l generalizing m with
  | nil =>
    cases h : lookupPorts m ip <;> simp [projPorts, h]
  | cons s l ih =>
    have hfold : (s :: l).foldl insertSocket m = l.foldl insertSocket (insertSocket m s) :=
      rfl
    rw [hfold, ih, lookupPorts_insertSocket]
    by_cases hip : s.1 = ip
    · have hproj : projPorts (s :: l) ip = s.2 :: projPorts l ip := by
        simp [projPorts, List.filter_cons, hip]
      rw [hproj]
      cases hm : lookupPorts m ip <;> simp [hip]
    · have hproj : projPorts (s :: l) ip = projPorts l ip := by
        simp [projPorts, List.filter_cons, hip]
      rw [hproj]
      simp [hip]

/-- `ports_per_ip.get(ip)` returns exactly the projection of the scanner's
socket list onto `ip`, in scanner-output order — `None` when `ip` never
occurs. -/
theorem lookupPorts_buildPortsPerIp (sr : List (String × Nat)) (ip : String) :
    lookupPorts (buildPortsPerIp sr) ip =
      if projPorts sr ip = [] then none else some (projPorts sr ip) := by
  have h := lookupPorts_foldl sr [] ip
  simpa [buildPortsPerIp, lookupPorts] using h

/-- C1 counterexample: with one target and a scanner result listing its open
ports as `[80, 22]` (descending), the worker's `"ip -> [...]"` line reports
`[80, 22]` — the scanner's output order, not ascending numeric order. -/
theorem report_ports_not_sorted_counterexample :
    spawn_scan_worker_lines sampleCfgOneTarget ["10.0.0.1"]
        [("10.0.0.1", 80), ("10.0.0.1", 22)]
      = [.scanStart, .blank, .report "10.0.0.1" [80, 22]] ∧
    ¬ List.Sorted (· ≤ ·) [80, 22] := by
  constructor
  · decide
  · decide

/-- C1 amended: the per-target port list that the scan worker reports is that
target's open ports in the order the sockets appear in the scanner's output
(the grouping preserves scanner order and applies no sort); it is ascending
only when the scanner output itself lists that target's ports ascending. -/
theorem report_ports_in_scanner_order :
    (∀ (scan_result : List (String × Nat)) (ip : String),
      lookupPorts (buildPortsPerIp scan_result) ip =
        if projPorts scan_result ip = [] then none
        else some (projPorts scan_result ip)) ∧
    (∀ (cfg : ScanConfig) (resolved_ips : List String)
        (scan_result : List (String × Nat)) (ip : String) (ports : List Nat),
      WorkerLine.report ip ports ∈ spawn_scan_worker_lines cfg resolved_ips scan_result →
      ports = projPorts scan_result ip) := by
  refine ⟨lookupPorts_buildPortsPerIp, ?_⟩
  intro cfg ips sr ip ports hmem
  unfold spawn_scan_worker_lines at hmem
  cases hb : build_opts_from_scan_config cfg with
  | error e =>
    rw [hb] at hmem
    simp at hmem
  | ok opts =>
    rw [hb] at hmem
    rw [List.mem_cons] at hmem
    rcases hmem with hmem | hmem
    · exact WorkerLine.noConfusion hmem
    · by_cases hi : ips.isEmpty = true
      · rw [if_pos hi] at hmem
        simp at hmem
      · rw [if_neg hi] at hmem
        rw [List.mem_flatten] at hmem
        obtain ⟨block, hblockmem, hin⟩ := hmem
        rw [List.mem_map] at hblockmem
        obtain ⟨ip', hip', hblock⟩ := hblockmem
        rw [← hblock] at hin
        simp only [List.mem_cons, List.not_mem_nil, or_false] at hin
        rcases hin with hin | hin
        · exact WorkerLine.noConfusion hin
        · unfold reportOf at hin
          rw [lookupPorts_buildPortsPerIp] at hin
          by_cases hp : projPorts sr ip' = []
          · rw [if_pos hp] at hin
            exact WorkerLine.noConfusion hin
          · rw [if_neg hp] at hin
            have h1 : ip = ip' ∧ ports = projPorts sr ip' := by
              cases hin
              exact ⟨rfl, rfl⟩
            rw [h1.1]
            exact h1.2

/-- Witness for the amended C1 at the counterexample input: the reported list
`[80, 22]` is exactly the scanner-order projection. -/
theorem report_ports_in_scanner_order_witness :
    [80, 22] = projPorts [("10.0.0.1", 80), ("10.0.0.1", 22)] "10.0.0.1" :=
  report_ports_in_scanner_order.2 sampleCfgOneTarget ["10.0.0.1"]
    [("10.0.0.1", 80), ("10.0.0.1", 22)] "10.0.0.1" [80, 22] (by decide)

/-! ## One report per scanned IP (C7) -/

/-- The filter predicate of `extractReports` accepts every per-IP report. -/
theorem extractReports_pred_reportOf (sr : List (String × Nat)) (b : Nat)
    (ip : String) :
    (reportOf sr b ip = .report ip ((lookupPorts (buildPortsPerIp sr) ip).getD [])) ∨
    (reportOf sr b ip = .guidance ip b) := by
  unfold reportOf
  cases h : lookupPorts (buildPortsPerIp sr) ip with
  | none => exact Or.inr rfl
  | some ports => exact Or.inl (by simp)

theorem extractReports_blocks (ips : List String) (sr : List (String × Nat)) (b : Nat) :
    extractReports ((ips.map (fun ip => [WorkerLine.blank, reportOf sr b ip])).flatten)
      = ips.map (reportOf sr b) := by
  induction ips with
  | nil => rfl
  | cons ip ips ih =>
    simp only [List.map_cons, List.flatten_cons]
    unfold extractReports at ih ⊢
    rw [List.filter_append, ih]
    have hkeep : (fun l => match l with
        | WorkerLine.report _ _ => true
        | WorkerLine.guidance _ _ => true
        | _ => false) (reportOf sr b ip) = true := by
      unfold reportOf
      cases lookupPorts (buildPortsPerIp sr) ip <;> rfl
    simp [List.filter_cons, hkeep]

/-- C7: for every scanned IP list and every scanner result, the worker's
reporting loop emits exactly one report per IP in the list — the
`"ip -> [ports]"` line carrying all of that IP's open ports when it has at
least one, and otherwise the operator-guidance message carrying the
configured batch size. -/
theorem one_report_per_ip :
    ∀ (cfg : ScanConfig) (ips : List String) (sr : List (String × Nat)) (opts : Opts),
      build_opts_from_scan_config cfg = .ok opts → ips ≠ [] →
      (extractReports (spawn_scan_worker_lines cfg ips sr)
          = ips.map (reportOf sr cfg.batch_size) ∧
        (extractReports (spawn_scan_worker_lines cfg ips sr)).length = ips.length) ∧
      ∀ ip : String,
        (projPorts sr ip = [] ∧
          reportOf sr cfg.batch_size ip = .guidance ip cfg.batch_size) ∨
        (projPorts sr ip ≠ [] ∧
          reportOf sr cfg.batch_size ip = .report ip (projPorts sr ip)) := by
  intro cfg ips sr opts hok hne
  have hlines : spawn_scan_worker_lines cfg ips sr =
      .scanStart ::
        ((ips.map (fun ip => [WorkerLine.blank, reportOf sr cfg.batch_size ip])).flatten) := by
    unfold spawn_scan_worker_lines
    rw [hok]
    simp [List.isEmpty_iff, hne]
  have hext : extractReports (spawn_scan_worker_lines cfg ips sr)
      = ips.map (reportOf sr cfg.batch_size) := by
    rw [hlines]
    unfold extractReports
    rw [List.filter_cons]
    simp only [if_neg (by simp : ¬(false = true))]
    exact extractReports_blocks ips sr cfg.batch_size
  refine ⟨⟨hext, by rw [hext, List.length_map]⟩, ?_⟩
  intro ip
  unfold reportOf
  rw [lookupPorts_buildPortsPerIp]
  by_cases hp : projPorts sr ip = []
  · exact Or.inl ⟨hp, by rw [if_pos hp]⟩
  · exact Or.inr ⟨hp, by rw [if_neg hp]⟩

/-- Witness for C7: one IP with one open port, one IP-less scanner entry. -/
theorem one_report_per_ip_witness :
    extractReports (spawn_scan_worker_lines sampleCfgOneTarget ["10.0.0.2"]
        [("10.0.0.2", 22)])
      = (["10.0.0.2"] : List String).map (reportOf [("10.0.0.2", 22)]
          sampleCfgOneTarget.batch_size) ∧
    (extractReports (spawn_scan_worker_lines sampleCfgOneTarget ["10.0.0.2"]
        [("10.0.0.2", 22)])).length = 1 :=
  have h := one_report_per_ip sampleCfgOneTarget ["10.0.0.2"] [("10.0.0.2", 22)]
    c4opts (by decide) (by decide)
  ⟨h.1.1, h.1.2⟩
